import Mathlib

/-
Verification of the frame-time analysis pipeline (analyze_frametimes in main.py).
Floats are embedded as exact rationals, frames as downsampled luminance maps
(lists of rational pixel values), and the sequential classifier and aggregator
as explicit state-passing recursions.
-/

set_option maxRecDepth 8000

/-- A stutter event: a duplicate run that interrupted motion (dataclass StutterEvent). -/
structure StutterEvent where
  frame_index : ℕ
  timestamp : ℚ
  frametime_ms : ℚ
  duplicate_count : ℕ
  motion_before : ℚ
deriving DecidableEq

/-- Aggregate result of one analysis run (dataclass FrameTimeStats).
The two fields whose source names end in "ratio" carry a prime. -/
structure FrameTimeStats where
  fps : ℚ
  total_frames : ℕ
  duration : ℚ
  duplicate_frames : ℕ
  duplicate_ratio' : ℚ
  avg_frametime : ℚ
  one_percent_low : ℚ
  point_one_percent_low : ℚ
  max_frametime : ℚ
  avg_to_1pct_ratio' : ℚ
  stutter_score : ℚ
deriving DecidableEq

/-- Motion score of one frame transition: mean absolute difference of the two
downsampled luminance maps (line 74: np.mean of np.abs of gray minus prev_gray). -/
def frameDiff (prev cur : List ℚ) : ℚ :=
  (List.zipWith (fun x y => |x - y|) cur prev).sum /
    ((List.zipWith (fun x y => |x - y|) cur prev).length : ℚ)

/-- The frame-read loop (lines 68 to 75): one motion score per transition,
carrying the previous downsampled frame as rolling state. -/
def motionScoresFrom (prev : List ℚ) : List (List ℚ) → List ℚ
  | [] => []
  | g :: rest => frameDiff prev g :: motionScoresFrom g rest

/-- Motion scores of a whole frame sequence: the first frame has no predecessor. -/
def motionScores : List (List ℚ) → List ℚ
  | [] => []
  | f :: rest => motionScoresFrom f rest

/-- One pass of the adaptive duplicate classifier (lines 85 to 88): the EMA is
updated first, then the sample is compared against the adaptive and the
absolute threshold. -/
def classifyFrom (ema_alpha duplicate_threshold absolute_duplicate_max : ℚ) :
    ℚ → List ℚ → List Bool
  | _, [] => []
  | ema, d :: rest =>
    let ema' := ema_alpha * d + (1 - ema_alpha) * ema
    let adaptive := duplicate_threshold * max ema' (1/2)
    (decide (d < adaptive) && decide (d < absolute_duplicate_max)) ::
      classifyFrom ema_alpha duplicate_threshold absolute_duplicate_max ema' rest

/-- Adaptive duplicate classification (lines 82 to 88): the EMA is seeded with
the first sample when it is positive, else with 1. -/
def classify (ema_alpha duplicate_threshold absolute_duplicate_max : ℚ)
    (frame_diffs : List ℚ) : List Bool :=
  match frame_diffs with
  | [] => []
  | d0 :: _ =>
    classifyFrom ema_alpha duplicate_threshold absolute_duplicate_max
      (if 0 < d0 then d0 else 1) frame_diffs

/-- State of the duplicate-run aggregation loop (lines 91 to 96). -/
structure AggState where
  eff : List ℚ
  stutters : List StutterEvent
  curFt : ℚ
  curDupStart : Option ℕ
  curDupCount : ℕ
  curTime : ℚ
deriving DecidableEq

/-- Python list slice l[a:b] for natural bounds (empty when b is at most a). -/
def pySlice (l : List ℚ) (a b : ℕ) : List ℚ := (l.drop a).take (b - a)

/-- The motion context inspected before a duplicate run (lines 108 to 109):
frame_diffs sliced from max(0, start - context_frames) up to the run start. -/
def motionCtx (frame_diffs : List ℚ) (context_frames : ℤ) (dupStart : ℕ) : List ℚ :=
  pySlice frame_diffs (Int.toNat (max 0 ((dupStart : ℤ) - context_frames))) dupStart

/-- Arithmetic mean of a list of rationals (np.mean). -/
def listMean (l : List ℚ) : ℚ := l.sum / (l.length : ℚ)

/-- Stutter emission at a run boundary (lines 107 to 119): the event is added
only when the open run has a non-empty motion context averaging at least the
motion threshold. -/
def boundaryStutters (motion_threshold : ℚ) (context_frames : ℤ)
    (frame_diffs : List ℚ) (s : AggState) : List StutterEvent :=
  match s.curDupStart with
  | none => s.stutters
  | some ds =>
    if 1 ≤ s.curDupCount then
      if motionCtx frame_diffs context_frames ds = [] then s.stutters
      else if motion_threshold ≤ listMean (motionCtx frame_diffs context_frames ds) then
        s.stutters ++ [{ frame_index := ds, timestamp := s.curTime / 1000,
                         frametime_ms := s.curFt, duplicate_count := s.curDupCount,
                         motion_before := listMean (motionCtx frame_diffs context_frames ds) }]
      else s.stutters
    else s.stutters

/-- One iteration of the aggregation loop body (lines 98 to 124). -/
def stepAgg (frame_duration_ms motion_threshold : ℚ) (context_frames : ℤ)
    (frame_diffs : List ℚ) (s : AggState) (i : ℕ) (isDup : Bool) : AggState :=
  if isDup then
    match s.curDupStart with
    | none =>
      { s with curDupStart := some i, curDupCount := 1,
               curFt := s.curFt + frame_duration_ms }
    | some _ =>
      { s with curDupCount := s.curDupCount + 1,
               curFt := s.curFt + frame_duration_ms }
  else
    { eff := s.eff ++ [s.curFt]
      stutters := boundaryStutters motion_threshold context_frames frame_diffs s
      curFt := frame_duration_ms
      curDupStart := none
      curDupCount := 0
      curTime := s.curTime + s.curFt }

/-- The enumerated aggregation loop over the duplicate flags. -/
def aggLoop (frame_duration_ms motion_threshold : ℚ) (context_frames : ℤ)
    (frame_diffs : List ℚ) : ℕ → List Bool → AggState → AggState
  | _, [], s => s
  | i, b :: rest, s =>
    aggLoop frame_duration_ms motion_threshold context_frames frame_diffs
      (i + 1) rest
      (stepAgg frame_duration_ms motion_threshold context_frames frame_diffs s i b)

/-- Initial aggregation state (lines 91 to 96): the accumulator starts at one
nominal frame duration. -/
def initAgg (frame_duration_ms : ℚ) : AggState :=
  { eff := [], stutters := [], curFt := frame_duration_ms,
    curDupStart := none, curDupCount := 0, curTime := 0 }

/-- Full aggregation (lines 98 to 126): the loop followed by the final flush of
the accumulated frame time. -/
def aggregate (frame_duration_ms motion_threshold : ℚ) (context_frames : ℤ)
    (frame_diffs : List ℚ) (flags : List Bool) : AggState :=
  let s := aggLoop frame_duration_ms motion_threshold context_frames frame_diffs
    0 flags (initAgg frame_duration_ms)
  { s with eff := s.eff ++ [s.curFt] }

/-- Ascending sort of the effective frame times (np.sort, line 132). -/
def sortAsc (eff : List ℚ) : List ℚ := List.insertionSort (fun a b => a ≤ b) eff

/-- Index of the 1 percent low (line 134): floor of 0.99 times the length,
clamped to the last index. -/
def idx1pct (n : ℕ) : ℕ := min (n * 99 / 100) (n - 1)

/-- Index of the 0.1 percent low (line 135): floor of 0.999 times the length,
clamped to the last index. -/
def idx01pct (n : ℕ) : ℕ := min (n * 999 / 1000) (n - 1)

/-- Maximum of a list of rationals (np.max, line 139). -/
def listMax : List ℚ → ℚ
  | [] => 0
  | h :: t => t.foldl max h

/-- The 1 percent low value (lines 132 to 137). -/
def onePctLow (eff : List ℚ) : ℚ :=
  (sortAsc eff).getD (idx1pct (sortAsc eff).length) 0

/-- The 0.1 percent low value (lines 132 to 138). -/
def pointOnePctLow (eff : List ℚ) : ℚ :=
  (sortAsc eff).getD (idx01pct (sortAsc eff).length) 0

/-- Frame rate implied by a frame time in milliseconds, with the zero guard of
lines 141 and 142. -/
def fpsOf (x : ℚ) : ℚ := if 0 < x then 1000 / x else 0

/-- The consistency measure of line 143: implied 1 percent low fps over implied
average fps, 0 when the average fps is not positive. -/
def ratioOf (eff : List ℚ) : ℚ :=
  if 0 < fpsOf (listMean eff) then fpsOf (onePctLow eff) / fpsOf (listMean eff) else 0

/-- Total duplicate frames across all emitted stutter events (line 145). -/
def stutterFrames (stutters : List StutterEvent) : ℚ :=
  (stutters.map fun e => (e.duplicate_count : ℚ)).sum

/-- Fraction of transitions lost to flagged stutters (line 146). -/
def stutterRatioOf (flags : List Bool) (stutters : List StutterEvent) : ℚ :=
  if flags = [] then 0 else stutterFrames stutters / (flags.length : ℚ)

/-- The smoothness score formula of line 147. -/
def scoreOf (eff : List ℚ) (flags : List Bool) (stutters : List StutterEvent) : ℚ :=
  max 0 (ratioOf eff * 100 - min 50 (stutterRatioOf flags stutters * 500))

/-- The statistics engine (lines 128 to 161). -/
def computeStats (fps : ℚ) (total_frames : ℕ) (eff : List ℚ) (flags : List Bool)
    (stutters : List StutterEvent) : FrameTimeStats :=
  { fps := fps
    total_frames := total_frames
    duration := (total_frames : ℚ) / fps
    duplicate_frames := flags.count true
    duplicate_ratio' := if flags = [] then 0 else ((flags.count true : ℕ) : ℚ) / (flags.length : ℚ)
    avg_frametime := listMean eff
    one_percent_low := onePctLow eff
    point_one_percent_low := pointOnePctLow eff
    max_frametime := listMax eff
    avg_to_1pct_ratio' := ratioOf eff
    stutter_score := scoreOf eff flags stutters }

/-- The analysis pipeline (analyze_frametimes, lines 43 to 161), abstracting the
frame source as a list of downsampled luminance maps plus the reported nominal
fps and frame count. -/
def analyze_frametimes (frames : List (List ℚ)) (fps : ℚ)
    (ema_alpha duplicate_threshold absolute_duplicate_max motion_threshold : ℚ)
    (context_frames : ℤ) (total_frames : ℕ) :
    Except String (FrameTimeStats × List StutterEvent) :=
  match frames with
  | [] => Except.error "Failed to read video frames"
  | f0 :: rest =>
    let frame_diffs := motionScoresFrom f0 rest
    if frame_diffs = [] then Except.error "No frame data extracted"
    else
      let frame_duration_ms := 1000 / fps
      let is_dup := classify ema_alpha duplicate_threshold absolute_duplicate_max frame_diffs
      let st := aggregate frame_duration_ms motion_threshold context_frames frame_diffs is_dup
      Except.ok (computeStats fps total_frames st.eff is_dup st.stutters, st.stutters)

/-- Duplicate flags of a frame sequence, as computed inside the pipeline. -/
def pipelineFlags (frames : List (List ℚ))
    (ema_alpha duplicate_threshold absolute_duplicate_max : ℚ) : List Bool :=
  classify ema_alpha duplicate_threshold absolute_duplicate_max (motionScores frames)

/-- Aggregation state of a frame sequence, as computed inside the pipeline. -/
def pipelineAgg (frames : List (List ℚ))
    (fps ema_alpha duplicate_threshold absolute_duplicate_max motion_threshold : ℚ)
    (context_frames : ℤ) : AggState :=
  aggregate (1000 / fps) motion_threshold context_frames (motionScores frames)
    (pipelineFlags frames ema_alpha duplicate_threshold absolute_duplicate_max)

/-- Statistics of a successful run, when there is one. -/
def runStats (frames : List (List ℚ)) (fps : ℚ)
    (ema_alpha duplicate_threshold absolute_duplicate_max motion_threshold : ℚ)
    (context_frames : ℤ) (total_frames : ℕ) : Option FrameTimeStats :=
  (analyze_frametimes frames fps ema_alpha duplicate_threshold absolute_duplicate_max
    motion_threshold context_frames total_frames).toOption.map Prod.fst

/-- Events satisfying the motion-gate contract: a non-empty preceding context
whose mean reaches the motion threshold, recorded in the event. -/
def goodEvent (frame_diffs : List ℚ) (context_frames : ℤ) (motion_threshold : ℚ)
    (e : StutterEvent) : Prop :=
  motionCtx frame_diffs context_frames e.frame_index ≠ [] ∧
  e.motion_before = listMean (motionCtx frame_diffs context_frames e.frame_index) ∧
  motion_threshold ≤ e.motion_before

lemma motionScoresFrom_length (prev : List ℚ) (l : List (List ℚ)) :
    (motionScoresFrom prev l).length = l.length := by
  induction l generalizing prev with
  | nil => rfl
  | cons g rest ih => simp [motionScoresFrom, ih]

lemma motionScores_cons (f : List ℚ) (rest : List (List ℚ)) :
    motionScores (f :: rest) = motionScoresFrom f rest := rfl

lemma motionScores_length (frames : List (List ℚ)) :
    (motionScores frames).length = frames.length - 1 := by
  cases frames with
  | nil => rfl
  | cons f rest => simp [motionScores_cons, motionScoresFrom_length]

lemma classifyFrom_length (a t m : ℚ) (ema : ℚ) (l : List ℚ) :
    (classifyFrom a t m ema l).length = l.length := by
  induction l generalizing ema with
  | nil => rfl
  | cons d rest ih => simp [classifyFrom, ih]

lemma classify_length (a t m : ℚ) (l : List ℚ) :
    (classify a t m l).length = l.length := by
  cases l with
  | nil => rfl
  | cons d rest => simp [classify, classifyFrom_length]

lemma count_true_add_count_false (l : List Bool) :
    l.count true + l.count false = l.length := by
  induction l with
  | nil => rfl
  | cons b rest ih =>
    cases b <;> simp [List.count_cons, ih] <;> omega

lemma stepAgg_true_eff (fd mt : ℚ) (cf : ℤ) (diffs : List ℚ) (s : AggState) (i : ℕ) :
    (stepAgg fd mt cf diffs s i true).eff = s.eff := by
  cases h : s.curDupStart <;> simp [stepAgg, h]

lemma stepAgg_true_stutters (fd mt : ℚ) (cf : ℤ) (diffs : List ℚ) (s : AggState) (i : ℕ) :
    (stepAgg fd mt cf diffs s i true).stutters = s.stutters := by
  cases h : s.curDupStart <;> simp [stepAgg, h]

lemma stepAgg_false (fd mt : ℚ) (cf : ℤ) (diffs : List ℚ) (s : AggState) (i : ℕ) :
    stepAgg fd mt cf diffs s i false =
      { eff := s.eff ++ [s.curFt]
        stutters := boundaryStutters mt cf diffs s
        curFt := fd
        curDupStart := none
        curDupCount := 0
        curTime := s.curTime + s.curFt } := rfl

lemma aggLoop_eff_length (fd mt : ℚ) (cf : ℤ) (diffs : List ℚ) :
    ∀ (flags : List Bool) (i : ℕ) (s : AggState),
      (aggLoop fd mt cf diffs i flags s).eff.length = s.eff.length + flags.count false := by
  intro flags
  induction flags with
  | nil => intro i s; simp [aggLoop]
  | cons b rest ih =>
    intro i s
    cases b with
    | true =>
      rw [aggLoop, ih]
      simp [stepAgg_true_eff, List.count_cons]
    | false =>
      rw [aggLoop, ih]
      simp [stepAgg_false, List.count_cons]
      omega

lemma aggregate_eff_length (fd mt : ℚ) (cf : ℤ) (diffs : List ℚ) (flags : List Bool) :
    (aggregate fd mt cf diffs flags).eff.length = flags.count false + 1 := by
  simp [aggregate, aggLoop_eff_length, initAgg]

lemma aggLoop_eff_sum (fd mt : ℚ) (cf : ℤ) (diffs : List ℚ) :
    ∀ (flags : List Bool) (i : ℕ) (s : AggState),
      (aggLoop fd mt cf diffs i flags s).eff.sum + (aggLoop fd mt cf diffs i flags s).curFt
        = s.eff.sum + s.curFt + fd * flags.length := by
  intro flags
  induction flags with
  | nil => intro i s; simp [aggLoop]
  | cons b rest ih =>
    intro i s
    cases b with
    | true =>
      rw [aggLoop, ih]
      have he : (stepAgg fd mt cf diffs s i true).eff = s.eff := stepAgg_true_eff ..
      have hc : (stepAgg fd mt cf diffs s i true).curFt = s.curFt + fd := by
        cases h : s.curDupStart <;> simp [stepAgg, h]
      rw [he, hc]
      simp only [List.length_cons]
      push_cast
      ring
    | false =>
      rw [aggLoop, ih, stepAgg_false]
      simp only [List.sum_append, List.sum_cons, List.sum_nil, List.length_cons]
      push_cast
      ring

lemma aggregate_eff_sum (fd mt : ℚ) (cf : ℤ) (diffs : List ℚ) (flags : List Bool) :
    (aggregate fd mt cf diffs flags).eff.sum = fd * (flags.length + 1) := by
  have h := aggLoop_eff_sum fd mt cf diffs flags 0 (initAgg fd)
  simp only [aggregate, List.sum_append, List.sum_cons, List.sum_nil, add_zero]
  rw [h]
  simp [initAgg]
  ring

lemma aggLoop_pos (fd mt : ℚ) (cf : ℤ) (diffs : List ℚ) (hfd : 0 < fd) :
    ∀ (flags : List Bool) (i : ℕ) (s : AggState),
      0 < s.curFt → (∀ x ∈ s.eff, 0 < x) →
      0 < (aggLoop fd mt cf diffs i flags s).curFt ∧
        ∀ x ∈ (aggLoop fd mt cf diffs i flags s).eff, 0 < x := by
  intro flags
  induction flags with
  | nil => intro i s h1 h2; exact ⟨h1, h2⟩
  | cons b rest ih =>
    intro i s h1 h2
    cases b with
    | true =>
      rw [aggLoop]
      refine ih _ _ ?_ ?_
      · have hc : (stepAgg fd mt cf diffs s i true).curFt = s.curFt + fd := by
          cases h : s.curDupStart <;> simp [stepAgg, h]
        rw [hc]; positivity
      · rw [stepAgg_true_eff]; exact h2
    | false =>
      rw [aggLoop]
      refine ih _ _ ?_ ?_
      · rw [stepAgg_false]; exact hfd
      · rw [stepAgg_false]
        intro x hx
        rcases List.mem_append.mp hx with hx | hx
        · exact h2 x hx
        · simp at hx; simpa [hx] using h1

lemma aggregate_eff_pos (fd mt : ℚ) (cf : ℤ) (diffs : List ℚ) (flags : List Bool)
    (hfd : 0 < fd) : ∀ x ∈ (aggregate fd mt cf diffs flags).eff, 0 < x := by
  have h := aggLoop_pos fd mt cf diffs hfd flags 0 (initAgg fd) hfd (by simp [initAgg])
  simp only [aggregate]
  intro x hx
  rcases List.mem_append.mp hx with hx | hx
  · exact h.2 x hx
  · simp at hx; simpa [hx] using h.1

lemma aggregate_eff_ne_nil (fd mt : ℚ) (cf : ℤ) (diffs : List ℚ) (flags : List Bool) :
    (aggregate fd mt cf diffs flags).eff ≠ [] := by
  simp [aggregate]

lemma boundaryStutters_good (mt : ℚ) (cf : ℤ) (diffs : List ℚ) (s : AggState)
    (h : ∀ e ∈ s.stutters, goodEvent diffs cf mt e) :
    ∀ e ∈ boundaryStutters mt cf diffs s, goodEvent diffs cf mt e := by
  intro e he
  unfold boundaryStutters at he
  split at he
  · exact h e he
  · rename_i ds
    split at he
    · split at he
      · exact h e he
      · split at he
        · rename_i h2 h3
          rcases List.mem_append.mp he with he | he
          · exact h e he
          · simp at he
            subst he
            exact ⟨h2, rfl, h3⟩
        · exact h e he
    · exact h e he

lemma aggLoop_good (fd mt : ℚ) (cf : ℤ) (diffs : List ℚ) :
    ∀ (flags : List Bool) (i : ℕ) (s : AggState),
      (∀ e ∈ s.stutters, goodEvent diffs cf mt e) →
      ∀ e ∈ (aggLoop fd mt cf diffs i flags s).stutters, goodEvent diffs cf mt e := by
  intro flags
  induction flags with
  | nil => intro i s h; exact h
  | cons b rest ih =>
    intro i s h
    cases b with
    | true =>
      rw [aggLoop]
      exact ih _ _ (by rw [stepAgg_true_stutters]; exact h)
    | false =>
      rw [aggLoop]
      refine ih _ _ ?_
      rw [stepAgg_false]
      exact boundaryStutters_good mt cf diffs s h

lemma aggregate_good (fd mt : ℚ) (cf : ℤ) (diffs : List ℚ) (flags : List Bool) :
    ∀ e ∈ (aggregate fd mt cf diffs flags).stutters, goodEvent diffs cf mt e := by
  have h := aggLoop_good fd mt cf diffs flags 0 (initAgg fd) (by simp [initAgg])
  simpa [aggregate] using h

lemma aggLoop_append (fd mt : ℚ) (cf : ℤ) (diffs : List ℚ) :
    ∀ (l1 l2 : List Bool) (i : ℕ) (s : AggState),
      aggLoop fd mt cf diffs i (l1 ++ l2) s
        = aggLoop fd mt cf diffs (i + l1.length) l2 (aggLoop fd mt cf diffs i l1 s) := by
  intro l1
  induction l1 with
  | nil => intro l2 i s; simp [aggLoop]
  | cons b rest ih =>
    intro l2 i s
    rw [List.cons_append, aggLoop, ih, aggLoop]
    congr 1
    simp
    omega

lemma aggLoop_stutters_of_true (fd mt : ℚ) (cf : ℤ) (diffs : List ℚ) :
    ∀ (tail : List Bool) (i : ℕ) (s : AggState), (∀ b ∈ tail, b = true) →
      (aggLoop fd mt cf diffs i tail s).stutters = s.stutters := by
  intro tail
  induction tail with
  | nil => intro i s _; rfl
  | cons b rest ih =>
    intro i s h
    have hb : b = true := h b (by simp)
    subst hb
    rw [aggLoop, ih _ _ (fun x hx => h x (by simp [hx]))]
    exact stepAgg_true_stutters ..

lemma motionCtx_nonpos (diffs : List ℚ) (cf : ℤ) (ds : ℕ) (hcf : cf ≤ 0) :
    motionCtx diffs cf ds = [] := by
  have h1 : (ds : ℤ) ≤ max 0 ((ds : ℤ) - cf) := le_trans (by omega) (le_max_right _ _)
  have h2 : ds ≤ (max 0 ((ds : ℤ) - cf)).toNat := by
    have := Int.toNat_le_toNat h1
    simpa using this
  have h3 : ds - (max 0 ((ds : ℤ) - cf)).toNat = 0 := Nat.sub_eq_zero_of_le h2
  simp [motionCtx, pySlice, h3]

lemma boundaryStutters_nonpos (mt : ℚ) (cf : ℤ) (diffs : List ℚ) (s : AggState)
    (hcf : cf ≤ 0) : boundaryStutters mt cf diffs s = s.stutters := by
  unfold boundaryStutters
  split
  · rfl
  · rename_i ds heq
    split
    · rw [if_pos (motionCtx_nonpos diffs cf _ hcf)]
    · rfl

lemma aggLoop_stutters_nonpos (fd mt : ℚ) (cf : ℤ) (diffs : List ℚ) (hcf : cf ≤ 0) :
    ∀ (flags : List Bool) (i : ℕ) (s : AggState),
      (aggLoop fd mt cf diffs i flags s).stutters = s.stutters := by
  intro flags
  induction flags with
  | nil => intro i s; rfl
  | cons b rest ih =>
    intro i s
    cases b with
    | true => rw [aggLoop, ih, stepAgg_true_stutters]
    | false =>
      rw [aggLoop, ih, stepAgg_false]
      exact boundaryStutters_nonpos mt cf diffs s hcf

lemma aggregate_stutters_nonpos (fd mt : ℚ) (cf : ℤ) (diffs : List ℚ) (flags : List Bool)
    (hcf : cf ≤ 0) : (aggregate fd mt cf diffs flags).stutters = [] := by
  simp [aggregate, aggLoop_stutters_nonpos fd mt cf diffs hcf, initAgg]

lemma listMean_pos (eff : List ℚ) (h : eff ≠ []) (hp : ∀ x ∈ eff, 0 < x) :
    0 < listMean eff := by
  refine div_pos (List.sum_pos eff hp h) ?_
  exact_mod_cast List.length_pos.mpr h

lemma sortAsc_length (l : List ℚ) : (sortAsc l).length = l.length :=
  List.length_insertionSort _ l

lemma sortAsc_perm (l : List ℚ) : (sortAsc l).Perm l :=
  List.perm_insertionSort _ l

lemma sortAsc_sorted (l : List ℚ) : List.Sorted (fun a b => a ≤ b) (sortAsc l) :=
  List.sorted_insertionSort _ l

lemma idx1pct_lt (n : ℕ) (h : 0 < n) : idx1pct n < n :=
  lt_of_le_of_lt (min_le_right _ _) (Nat.sub_lt h Nat.one_pos)

lemma idx01pct_lt (n : ℕ) (h : 0 < n) : idx01pct n < n :=
  lt_of_le_of_lt (min_le_right _ _) (Nat.sub_lt h Nat.one_pos)

lemma idx1pct_le_idx01pct (n : ℕ) : idx1pct n ≤ idx01pct n := by
  unfold idx1pct idx01pct
  omega

lemma getD_of_lt (l : List ℚ) (i : ℕ) (h : i < l.length) (d : ℚ) :
    l.getD i d = l.get ⟨i, h⟩ := by
  simp [List.getD_eq_getElem?_getD, List.getElem?_eq_getElem h, List.get_eq_getElem]

lemma onePctLow_mem (eff : List ℚ) (h : eff ≠ []) : onePctLow eff ∈ eff := by
  have hn : 0 < (sortAsc eff).length := by
    rw [sortAsc_length]
    exact List.length_pos.mpr h
  have hi : idx1pct (sortAsc eff).length < (sortAsc eff).length := idx1pct_lt _ hn
  rw [onePctLow, getD_of_lt _ _ hi]
  exact (sortAsc_perm eff).mem_iff.mp (List.get_mem _ _ _)

lemma onePctLow_pos (eff : List ℚ) (h : eff ≠ []) (hp : ∀ x ∈ eff, 0 < x) :
    0 < onePctLow eff :=
  hp _ (onePctLow_mem eff h)

lemma onePct_le_pointOnePct (eff : List ℚ) (h : eff ≠ []) :
    onePctLow eff ≤ pointOnePctLow eff := by
  have hn : 0 < (sortAsc eff).length := by
    rw [sortAsc_length]
    exact List.length_pos.mpr h
  have h1 : idx1pct (sortAsc eff).length < (sortAsc eff).length := idx1pct_lt _ hn
  have h2 : idx01pct (sortAsc eff).length < (sortAsc eff).length := idx01pct_lt _ hn
  rw [onePctLow, pointOnePctLow, getD_of_lt _ _ h1, getD_of_lt _ _ h2]
  exact (sortAsc_sorted eff).rel_get_of_le (idx1pct_le_idx01pct _)

lemma analyze_ok_elim {frames : List (List ℚ)} {fps ea dt am mt : ℚ} {cf : ℤ} {tf : ℕ}
    {st : FrameTimeStats} {stut : List StutterEvent}
    (h : analyze_frametimes frames fps ea dt am mt cf tf = Except.ok (st, stut)) :
    motionScores frames ≠ [] ∧
    st = computeStats fps tf (pipelineAgg frames fps ea dt am mt cf).eff
      (pipelineFlags frames ea dt am) (pipelineAgg frames fps ea dt am mt cf).stutters ∧
    stut = (pipelineAgg frames fps ea dt am mt cf).stutters := by
  cases frames with
  | nil => simp [analyze_frametimes] at h
  | cons f0 rest =>
    simp only [analyze_frametimes] at h
    split at h
    · exact absurd h (by simp)
    · rename_i hne
      simp only [Except.ok.injEq, Prod.mk.injEq] at h
      refine ⟨by simpa [motionScores_cons] using hne, ?_, ?_⟩
      · rw [← h.1]
        simp [pipelineAgg, pipelineFlags, motionScores_cons]
      · rw [← h.2]
        simp [pipelineAgg, pipelineFlags, motionScores_cons]

/-- Post-update EMA values along a sample sequence, as the claim describes them:
for each sample the EMA is updated first, and the updated value governs that
sample. -/
def emaScan (ema_alpha : ℚ) : ℚ → List ℚ → List ℚ
  | _, [] => []
  | e, d :: rest =>
    (ema_alpha * d + (1 - ema_alpha) * e) ::
      emaScan ema_alpha (ema_alpha * d + (1 - ema_alpha) * e) rest

/-- Modelled from the claim wording for the classifier contract: seed the EMA
with the first sample (or 1 when that sample is zero), pair every sample with
its post-update EMA, and flag it as duplicate iff it is below both the adaptive
threshold and the absolute ceiling. -/
def classifySpec (ema_alpha duplicate_threshold absolute_duplicate_max : ℚ)
    (samples : List ℚ) : List Bool :=
  match samples with
  | [] => []
  | d0 :: _ =>
    (samples.zip (emaScan ema_alpha (if d0 = 0 then 1 else d0) samples)).map
      (fun p => decide (p.1 < duplicate_threshold * max p.2 (1/2)) &&
        decide (p.1 < absolute_duplicate_max))

lemma classifyFrom_eq_zip (a t m : ℚ) :
    ∀ (l : List ℚ) (e : ℚ),
      classifyFrom a t m e l
        = (l.zip (emaScan a e l)).map
            (fun p => decide (p.1 < t * max p.2 (1/2)) && decide (p.1 < m)) := by
  intro l
  induction l with
  | nil => intro e; rfl
  | cons d rest ih =>
    intro e
    simp only [classifyFrom, emaScan, List.zip_cons_cons, List.map_cons]
    rw [ih]

lemma classifySpec_length (a t m : ℚ) (l : List ℚ) :
    (classifySpec a t m l).length = l.length := by
  cases l with
  | nil => rfl
  | cons d rest =>
    have h : ∀ (x : ℚ) (xs : List ℚ), (emaScan a x xs).length = xs.length := by
      intro x xs
      induction xs generalizing x with
      | nil => rfl
      | cons y ys ihy => simp [emaScan, ihy]
    simp [classifySpec, List.length_zip, h]

lemma ratioOf_eq (eff : List ℚ) (hne : eff ≠ []) (hp : ∀ x ∈ eff, 0 < x) :
    ratioOf eff = listMean eff / onePctLow eff := by
  have ha : 0 < listMean eff := listMean_pos eff hne hp
  have hq : 0 < onePctLow eff := onePctLow_pos eff hne hp
  have hf : fpsOf (listMean eff) = 1000 / listMean eff := if_pos ha
  have hf2 : 0 < fpsOf (listMean eff) := by rw [hf]; positivity
  rw [ratioOf, if_pos hf2, hf, fpsOf, if_pos hq]
  rw [div_div_div_comm, div_self (by norm_num : (1000:ℚ) ≠ 0), one_div,
    inv_div]

lemma computeStats_score (fps : ℚ) (tf : ℕ) (eff : List ℚ) (flags : List Bool)
    (stutters : List StutterEvent) :
    (computeStats fps tf eff flags stutters).stutter_score = scoreOf eff flags stutters := rfl

lemma computeStats_r1 (fps : ℚ) (tf : ℕ) (eff : List ℚ) (flags : List Bool)
    (stutters : List StutterEvent) :
    (computeStats fps tf eff flags stutters).avg_to_1pct_ratio' = ratioOf eff := rfl

lemma computeStats_avg (fps : ℚ) (tf : ℕ) (eff : List ℚ) (flags : List Bool)
    (stutters : List StutterEvent) :
    (computeStats fps tf eff flags stutters).avg_frametime = listMean eff := rfl

lemma computeStats_1pct (fps : ℚ) (tf : ℕ) (eff : List ℚ) (flags : List Bool)
    (stutters : List StutterEvent) :
    (computeStats fps tf eff flags stutters).one_percent_low = onePctLow eff := rfl

lemma computeStats_01pct (fps : ℚ) (tf : ℕ) (eff : List ℚ) (flags : List Bool)
    (stutters : List StutterEvent) :
    (computeStats fps tf eff flags stutters).point_one_percent_low = pointOnePctLow eff := rfl

lemma pipelineFlags_length (frames : List (List ℚ)) (ea dt am : ℚ) :
    (pipelineFlags frames ea dt am).length = frames.length - 1 := by
  rw [pipelineFlags, classify_length, motionScores_length]

lemma pipelineAgg_def (frames : List (List ℚ)) (fps ea dt am mt : ℚ) (cf : ℤ) :
    pipelineAgg frames fps ea dt am mt cf
      = aggregate (1000 / fps) mt cf (motionScores frames)
          (pipelineFlags frames ea dt am) := rfl

lemma two_le_of_scores_ne_nil (frames : List (List ℚ)) (h : motionScores frames ≠ []) :
    2 ≤ frames.length := by
  have h1 := motionScores_length frames
  have h2 : 0 < (motionScores frames).length := List.length_pos.mpr h
  omega

/-- C1 (amended): for a frame sequence of at least two frames, the length of the
EffectiveFrameTime sequence produced by the aggregator plus the number of
transitions flagged as duplicate equals total_frames (not total_frames - 1):
the final flush adds one terminal entry beyond the per-transition accounting. -/
theorem C1_thm (frames : List (List ℚ)) (fps ea dt am mt : ℚ) (cf : ℤ)
    (h2 : 2 ≤ frames.length) :
    (pipelineAgg frames fps ea dt am mt cf).eff.length
      + (pipelineFlags frames ea dt am).count true = frames.length := by
  have h1 := aggregate_eff_length (1000 / fps) mt cf (motionScores frames)
    (pipelineFlags frames ea dt am)
  have hc := count_true_add_count_false (pipelineFlags frames ea dt am)
  have hl := pipelineFlags_length frames ea dt am
  rw [pipelineAgg_def, h1]
  omega

/-- C1 counterexample: a two-frame run with no duplicates yields two effective
frame times and zero duplicates, so the sum is 2, not total_frames - 1 = 1. -/
theorem C1_counterexample :
    ¬ ((pipelineAgg [[0], [10]] 50 (1/10) (1/10) (1/10) 2 5).eff.length
        + (pipelineFlags [[0], [10]] (1/10) (1/10) (1/10)).count true
        = ([[(0:ℚ)], [10]] : List (List ℚ)).length - 1) := by
  with_unfolding_all decide

/-- C1 witness: the amended count identity evaluated on a concrete two-frame run. -/
theorem C1_witness :
    2 ≤ ([[(0:ℚ)], [10]] : List (List ℚ)).length ∧
    (pipelineAgg [[0], [10]] 50 (1/10) (1/10) (1/10) 2 5).eff.length
      + (pipelineFlags [[0], [10]] (1/10) (1/10) (1/10)).count true
      = ([[(0:ℚ)], [10]] : List (List ℚ)).length :=
  ⟨by decide, C1_thm [[0], [10]] 50 (1/10) (1/10) (1/10) 2 5 (by decide)⟩

/-- C2 (amended): the stutter score of every successful run is bounded below by
zero; the claimed upper bound of 100 does not hold in general. -/
theorem C2_thm (frames : List (List ℚ)) (fps ea dt am mt : ℚ) (cf : ℤ) (tf : ℕ)
    (st : FrameTimeStats) (stut : List StutterEvent)
    (h : analyze_frametimes frames fps ea dt am mt cf tf = Except.ok (st, stut)) :
    0 ≤ st.stutter_score := by
  obtain ⟨-, hst, -⟩ := analyze_ok_elim h
  rw [hst, computeStats_score, scoreOf]
  exact le_max_left 0 _

/-- C3: the stutter score of a successful run follows the documented formula,
and the consistency measure equals average frame time over the 1 percent low. -/
theorem C3_thm (frames : List (List ℚ)) (fps ea dt am mt : ℚ) (cf : ℤ) (tf : ℕ)
    (st : FrameTimeStats) (stut : List StutterEvent) (hfps : 0 < fps)
    (h : analyze_frametimes frames fps ea dt am mt cf tf = Except.ok (st, stut)) :
    st.stutter_score
      = max 0 ( st.avg_to_1pct_ratio' * 100 -
          min 50 (stutterFrames stut / ((frames.length : ℚ) - 1) * 500)) ∧
    st.avg_to_1pct_ratio' = st.avg_frametime / st.one_percent_low := by
  obtain ⟨hne, hst, hstut⟩ := analyze_ok_elim h
  have hfd : 0 < (1000 : ℚ) / fps := by positivity
  have heffne : (pipelineAgg frames fps ea dt am mt cf).eff ≠ [] := by
    rw [pipelineAgg_def]; exact aggregate_eff_ne_nil _ _ _ _ _
  have heffpos : ∀ x ∈ (pipelineAgg frames fps ea dt am mt cf).eff, 0 < x := by
    rw [pipelineAgg_def]; exact aggregate_eff_pos _ _ _ _ _ hfd
  have h2 : 2 ≤ frames.length := two_le_of_scores_ne_nil frames hne
  have hlen := pipelineFlags_length frames ea dt am
  have hflagsne : pipelineFlags frames ea dt am ≠ [] := by
    intro hh
    rw [hh] at hlen
    simp at hlen
    omega
  have hcast : ((pipelineFlags frames ea dt am).length : ℚ) = (frames.length : ℚ) - 1 := by
    rw [hlen]
    have h1 : 1 ≤ frames.length := by omega
    push_cast [Nat.cast_sub h1]
    ring
  constructor
  · rw [hst, computeStats_score, computeStats_r1, scoreOf, hstut,
      stutterRatioOf, if_neg hflagsne, hcast]
  · rw [hst, computeStats_r1, computeStats_avg, computeStats_1pct]
    exact ratioOf_eq _ heffne heffpos

/-- C4: the adaptive classifier agrees with its contract on every sequence of
nonnegative motion samples (seed from the first sample or 1 when it is zero,
update the EMA before the check, flag below both thresholds), and produces one
flag per sample. -/
theorem C4_thm (a t m : ℚ) (samples : List ℚ) (hpos : ∀ d ∈ samples, 0 ≤ d) :
    classify a t m samples = classifySpec a t m samples ∧
    (classify a t m samples).length = samples.length := by
  refine ⟨?_, classify_length a t m samples⟩
  cases samples with
  | nil => rfl
  | cons d0 rest =>
    have h0 : (if 0 < d0 then d0 else 1) = (if d0 = 0 then 1 else d0) := by
      rcases (hpos d0 (by simp)).eq_or_lt with h | h
      · rw [if_neg (by rw [← h]; exact lt_irrefl 0), if_pos h.symm]
      · rw [if_pos h, if_neg (ne_of_gt h)]
    rw [classify, classifySpec, h0, classifyFrom_eq_zip]

/-- C5: every stutter event of a successful run has a non-empty motion context
before its duplicate run whose mean reaches the motion threshold; runs with an
empty context are never emitted and cause no failure. -/
theorem C5_thm (frames : List (List ℚ)) (fps ea dt am mt : ℚ) (cf : ℤ) (tf : ℕ)
    (st : FrameTimeStats) (stut : List StutterEvent)
    (h : analyze_frametimes frames fps ea dt am mt cf tf = Except.ok (st, stut)) :
    ∀ e ∈ stut,
      motionCtx (motionScores frames) cf e.frame_index ≠ [] ∧
      e.motion_before = listMean (motionCtx (motionScores frames) cf e.frame_index) ∧
      mt ≤ e.motion_before := by
  obtain ⟨-, -, hstut⟩ := analyze_ok_elim h
  rw [hstut, pipelineAgg_def]
  exact fun e he => aggregate_good _ _ _ _ _ e he

/-- C6: in every successful run the 0.1 percent low is at least the 1 percent
low, because its index lies further into the ascending-sorted tail. -/
theorem C6_thm (frames : List (List ℚ)) (fps ea dt am mt : ℚ) (cf : ℤ) (tf : ℕ)
    (st : FrameTimeStats) (stut : List StutterEvent)
    (h : analyze_frametimes frames fps ea dt am mt cf tf = Except.ok (st, stut)) :
    st.one_percent_low ≤ st.point_one_percent_low := by
  obtain ⟨-, hst, -⟩ := analyze_ok_elim h
  rw [hst, computeStats_1pct, computeStats_01pct]
  refine onePct_le_pointOnePct _ ?_
  rw [pipelineAgg_def]
  exact aggregate_eff_ne_nil _ _ _ _ _

/-- C7: the effective frame times of a run over N frames sum exactly to
N / fps * 1000 milliseconds, the playback duration implied by the frames the
source yielded. -/
theorem C7_thm (frames : List (List ℚ)) (fps ea dt am mt : ℚ) (cf : ℤ)
    (_hfps : 0 < fps) (h2 : 2 ≤ frames.length) :
    (pipelineAgg frames fps ea dt am mt cf).eff.sum
      = (frames.length : ℚ) / fps * 1000 := by
  rw [pipelineAgg_def, aggregate_eff_sum, pipelineFlags_length]
  have h1 : 1 ≤ frames.length := by omega
  have hcast : ((frames.length - 1 : ℕ) : ℚ) = (frames.length : ℚ) - 1 := by
    push_cast [Nat.cast_sub h1]
    ring
  rw [hcast]
  ring

/-- C8 (amended): the pipeline performs no parameter validation: with a
non-positive context window it still returns a computed result, in which the
motion context of every run is empty and hence no stutter event is emitted. -/
theorem C8_thm (frames : List (List ℚ)) (fps ea dt am mt : ℚ) (cf : ℤ) (tf : ℕ)
    (hcf : cf ≤ 0) (h2 : 2 ≤ frames.length) :
    ∃ st, analyze_frametimes frames fps ea dt am mt cf tf = Except.ok (st, []) := by
  cases frames with
  | nil => simp at h2
  | cons f0 rest =>
    have hne : motionScoresFrom f0 rest ≠ [] := by
      intro hh
      have hl := motionScoresFrom_length f0 rest
      rw [hh] at hl
      simp at hl
      simp [← hl] at h2
    refine ⟨computeStats fps tf
      (aggregate (1000 / fps) mt cf (motionScoresFrom f0 rest)
        (classify ea dt am (motionScoresFrom f0 rest))).eff
      (classify ea dt am (motionScoresFrom f0 rest)) [], ?_⟩
    simp only [analyze_frametimes]
    rw [if_neg hne, aggregate_stutters_nonpos _ _ _ _ _ hcf]

/-- C8 counterexample: invoked with the non-positive context window -1, the
pipeline returns a successful result instead of failing with a validation
error. -/
theorem C8_counterexample :
    (analyze_frametimes [[0], [10], [10]] 50 (1/10) (1/10) (1/10) 2 (-1) 3).isOk
      = true := by
  with_unfolding_all decide

/-- C8 witness: the amended no-validation behaviour evaluated at context window
zero on a concrete three-frame run. -/
theorem C8_witness :
    (-1 : ℤ) ≤ 0 ∧ 2 ≤ ([[(0:ℚ)], [10], [10]] : List (List ℚ)).length ∧
    ∃ st, analyze_frametimes [[0], [10], [10]] 50 (1/10) (1/10) (1/10) 2 (-1) 3
      = Except.ok (st, []) :=
  ⟨by decide, by decide,
    C8_thm [[0], [10], [10]] 50 (1/10) (1/10) (1/10) 2 (-1) 3 (by decide) (by decide)⟩

/-- C9: a frame source yielding fewer than two frames makes the analysis fail
with one of the two empty-stream errors, never returning a result. -/
theorem C9_thm (frames : List (List ℚ)) (fps ea dt am mt : ℚ) (cf : ℤ) (tf : ℕ)
    (h : frames.length < 2) :
    analyze_frametimes frames fps ea dt am mt cf tf
        = Except.error "Failed to read video frames" ∨
    analyze_frametimes frames fps ea dt am mt cf tf
        = Except.error "No frame data extracted" := by
  match frames, h with
  | [], _ => exact Or.inl rfl
  | [f], _ => exact Or.inr rfl

/-- C9 witness: a single-frame source evaluated concretely fails with the
empty-stream error. -/
theorem C9_witness :
    ([[(0:ℚ)]] : List (List ℚ)).length < 2 ∧
    (analyze_frametimes [[0]] 50 (1/10) (1/10) (1/10) 2 5 1
        = Except.error "Failed to read video frames" ∨
     analyze_frametimes [[0]] 50 (1/10) (1/10) (1/10) 2 5 1
        = Except.error "No frame data extracted") :=
  ⟨by decide, C9_thm [[0]] 50 (1/10) (1/10) (1/10) 2 5 1 (by decide)⟩

/-- C10: appending an all-duplicate tail to the flag sequence leaves the
stutter list unchanged: a duplicate run that extends to the end of the motion
samples never produces a stutter event, because emission happens only at
non-duplicate boundaries and the final flush performs no event check. -/
theorem C10_thm (fd mt : ℚ) (cf : ℤ) (diffs : List ℚ) (flags tail : List Bool)
    (htail : ∀ b ∈ tail, b = true) :
    (aggregate fd mt cf diffs (flags ++ tail)).stutters
      = (aggregate fd mt cf diffs flags).stutters := by
  simp only [aggregate]
  rw [aggLoop_append, aggLoop_stutters_of_true _ _ _ _ _ _ _ htail]

/-- C10 witness: a concrete run whose last two samples are duplicates yields
the same stutter list as its prefix without them, despite strong prior motion. -/
theorem C10_witness :
    (∀ b ∈ [true, true], b = true) ∧
    (aggregate 20 2 5 [10, 10, 0, 0] ([false, false] ++ [true, true])).stutters
      = (aggregate 20 2 5 [10, 10, 0, 0] [false, false]).stutters :=
  ⟨by decide, C10_thm 20 2 5 [10, 10, 0, 0] [false, false] [true, true] (by decide)⟩

/-- Motion samples of the 102-frame counterexample run: one hundred strong
transitions followed by a single terminal duplicate. -/
def repDiffs : List ℚ := List.replicate 100 10 ++ [0]

/-- Duplicate flags the classifier assigns to repDiffs. -/
def repFlags : List Bool := List.replicate 100 false ++ [true]

/-- Effective frame times of the counterexample run at fps 50. -/
def repEff : List ℚ := List.replicate 100 20 ++ [40]

/-- Frames 2 to 102 of the counterexample: luminance rising by 10 per frame,
then one exact duplicate of the last frame. -/
def cexTail : List (List ℚ) := (List.range 100).map (fun i => [(10:ℚ) * (i+1)]) ++ [[1000]]

/-- The 102-frame counterexample sequence. -/
def cexFrames : List (List ℚ) := [0] :: cexTail

lemma cex_diffs : motionScoresFrom [0] cexTail = repDiffs := by
  with_unfolding_all decide

lemma cex_flags : classify (1/10) (1/10) (1/10) repDiffs = repFlags := by
  with_unfolding_all decide

lemma cex_eff : (aggregate 20 2 5 repDiffs repFlags).eff = repEff := by
  with_unfolding_all decide

lemma cex_stut : (aggregate 20 2 5 repDiffs repFlags).stutters = [] := by
  with_unfolding_all decide

lemma cex_r1 : ratioOf repEff = 102/101 := by
  with_unfolding_all decide

lemma cex_sr : stutterRatioOf repFlags [] = 0 := by
  with_unfolding_all decide

lemma cex_ne : (repDiffs = []) = False := by simp [repDiffs]

lemma cex_score : scoreOf repEff repFlags [] = 10200/101 := by
  rw [scoreOf, cex_r1, cex_sr]
  norm_num

lemma cex_run :
    analyze_frametimes cexFrames 50 (1/10) (1/10) (1/10) 2 5 102
      = Except.ok (computeStats 50 102 repEff repFlags [], []) := by
  show (let frame_diffs := motionScoresFrom [0] cexTail
        if frame_diffs = [] then Except.error "No frame data extracted"
        else
          let frame_duration_ms := (1000:ℚ) / 50
          let is_dup := classify (1/10) (1/10) (1/10) frame_diffs
          let st := aggregate frame_duration_ms 2 5 frame_diffs is_dup
          Except.ok (computeStats 50 102 st.eff is_dup st.stutters, st.stutters))
      = _
  rw [cex_diffs]
  simp only [cex_ne, if_false]
  norm_num only
  rw [cex_flags, cex_eff, cex_stut]

/-- C2 counterexample: a successful 102-frame run whose stutter score is
10200/101, strictly greater than 100, refuting the claimed [0, 100] bound. -/
theorem C2_counterexample :
    analyze_frametimes cexFrames 50 (1/10) (1/10) (1/10) 2 5 102
      = Except.ok (computeStats 50 102 repEff repFlags [], []) ∧
    ¬ (computeStats 50 102 repEff repFlags []).stutter_score ≤ 100 := by
  refine ⟨cex_run, ?_⟩
  show ¬ scoreOf repEff repFlags [] ≤ 100
  rw [cex_score]
  norm_num

/-- Frames of the small concrete run shared by several witnesses: motion, one
duplicate during motion, then motion again. -/
def wFrames : List (List ℚ) := [[0], [10], [20], [20], [30]]

/-- Duplicate flags of the witness run. -/
def wFlags : List Bool := pipelineFlags wFrames (1/10) (1/10) (1/10)

/-- Aggregation state of the witness run. -/
def wAgg : AggState := pipelineAgg wFrames 50 (1/10) (1/10) (1/10) 2 5

/-- Statistics of the witness run. -/
def wStats : FrameTimeStats := computeStats 50 5 wAgg.eff wFlags wAgg.stutters

/-- Stutter events of the witness run. -/
def wStut : List StutterEvent := wAgg.stutters

/-- The single stutter event of the witness run. -/
def wEvent : StutterEvent :=
  { frame_index := 2, timestamp := 1/25, frametime_ms := 40,
    duplicate_count := 1, motion_before := 10 }

lemma wRun :
    analyze_frametimes wFrames 50 (1/10) (1/10) (1/10) 2 5 5
      = Except.ok (wStats, wStut) := rfl

lemma wEvent_mem : wEvent ∈ wStut := by
  with_unfolding_all decide

/-- C2 witness: the lower bound evaluated on the concrete five-frame run. -/
theorem C2_witness :
    analyze_frametimes wFrames 50 (1/10) (1/10) (1/10) 2 5 5
        = Except.ok (wStats, wStut) ∧
    0 ≤ wStats.stutter_score :=
  ⟨wRun, C2_thm wFrames 50 (1/10) (1/10) (1/10) 2 5 5 wStats wStut wRun⟩

/-- C3 witness: the score formula and consistency identity evaluated on the
concrete five-frame run. -/
theorem C3_witness :
    0 < (50:ℚ) ∧
    analyze_frametimes wFrames 50 (1/10) (1/10) (1/10) 2 5 5
        = Except.ok (wStats, wStut) ∧
    ( wStats.stutter_score
        = max 0 ( wStats.avg_to_1pct_ratio' * 100 -
            min 50 (stutterFrames wStut / ((wFrames.length : ℚ) - 1) * 500)) ∧
      wStats.avg_to_1pct_ratio' = wStats.avg_frametime / wStats.one_percent_low) :=
  ⟨by norm_num, wRun,
    C3_thm wFrames 50 (1/10) (1/10) (1/10) 2 5 5 wStats wStut (by norm_num) wRun⟩

/-- C4 witness: the classifier contract evaluated on the concrete sample list
with one strong motion sample and one zero sample. -/
theorem C4_witness :
    (∀ d ∈ [(10:ℚ), 0], 0 ≤ d) ∧
    (classify (1/10) (1/10) (1/10) [10, 0] = classifySpec (1/10) (1/10) (1/10) [10, 0] ∧
     (classify (1/10) (1/10) (1/10) [10, 0]).length = ([(10:ℚ), 0]).length) :=
  ⟨by decide, C4_thm (1/10) (1/10) (1/10) [10, 0] (by decide)⟩

/-- C5 witness: the emitted event of the five-frame run indeed carries a
non-empty context averaging at least the motion threshold. -/
theorem C5_witness :
    analyze_frametimes wFrames 50 (1/10) (1/10) (1/10) 2 5 5
        = Except.ok (wStats, wStut) ∧
    wEvent ∈ wStut ∧
    (motionCtx (motionScores wFrames) 5 wEvent.frame_index ≠ [] ∧
     wEvent.motion_before = listMean (motionCtx (motionScores wFrames) 5 wEvent.frame_index) ∧
     (2:ℚ) ≤ wEvent.motion_before) :=
  ⟨wRun, wEvent_mem,
    C5_thm wFrames 50 (1/10) (1/10) (1/10) 2 5 5 wStats wStut wRun wEvent wEvent_mem⟩

/-- C6 witness: the quantile inequality evaluated on the five-frame run. -/
theorem C6_witness :
    analyze_frametimes wFrames 50 (1/10) (1/10) (1/10) 2 5 5
        = Except.ok (wStats, wStut) ∧
    wStats.one_percent_low ≤ wStats.point_one_percent_low :=
  ⟨wRun, C6_thm wFrames 50 (1/10) (1/10) (1/10) 2 5 5 wStats wStut wRun⟩

/-- C7 witness: the duration identity evaluated on the five-frame run. -/
theorem C7_witness :
    0 < (50:ℚ) ∧ 2 ≤ wFrames.length ∧
    (pipelineAgg wFrames 50 (1/10) (1/10) (1/10) 2 5).eff.sum
      = (wFrames.length : ℚ) / 50 * 1000 :=
  ⟨by norm_num, by decide,
    C7_thm wFrames 50 (1/10) (1/10) (1/10) 2 5 (by norm_num) (by decide)⟩
